import Mathlib

/-!
Shallow embedding of the miniMind feed/connection core: the content
splitters (server route handler and client modal), the in-memory entity
store (`MemStorage`), the REST route handlers over it, and the feed
progress accessor (`FeedCard.completionRate`).  Times are modelled as
naturals, JS numbers for ids and counters as naturals, `num_sent` as an
integer, and JS floating-point arithmetic in the progress accessor as
exact rational arithmetic.
-/

namespace MiniMind

/-- Whitespace recognized by JS `String.prototype.trim` (the common
ASCII whitespace and line terminators, plus NBSP). -/
def isJsWs (c : Char) : Bool :=
  c = ' ' || c = '\t' || c = '\n' || c = '\r' ||
  c = '\x0b' || c = '\x0c' || c = ' '

/-- `trim` on a character list: drop leading and trailing whitespace. -/
def jsTrimList (l : List Char) : List Char :=
  ((l.dropWhile isJsWs).reverse.dropWhile isJsWs).reverse

/-- Model of JS `String.prototype.trim`. -/
def jsTrim (s : String) : String :=
  ⟨jsTrimList s.data⟩

/-- Does `sep` occur at the head of `l`? -/
def leadMatch : List Char → List Char → Bool
  | [], _ => true
  | _ :: _, [] => false
  | s :: ss, c :: cs => s = c && leadMatch ss cs

/-- Core of JS `split` on character lists, for a non-empty separator:
scan left to right; on a separator match emit the accumulated chunk and
skip the rest of the separator (`skip` counts characters still to drop).
`acc` holds the current chunk reversed. -/
def jsSplitGo (sep : List Char) : Nat → List Char → List Char → List (List Char)
  | _, acc, [] => [acc.reverse]
  | k + 1, acc, _ :: cs => jsSplitGo sep k acc cs
  | 0, acc, c :: cs =>
    if leadMatch sep (c :: cs) then
      acc.reverse :: jsSplitGo sep (sep.length - 1) [] cs
    else
      jsSplitGo sep 0 (c :: acc) cs

/-- Model of JS `String.prototype.split` with a string separator:
splits on leftmost non-overlapping occurrences; the empty separator
splits into single characters; splitting the empty string on the empty
separator gives the empty list. -/
def jsSplit (s sep : String) : List String :=
  if sep = "" then s.data.map (fun c => String.mk [c])
  else (jsSplitGo sep.data 0 [] s.data).map (fun l => String.mk l)

/-- The server-side content split used by the POST `/api/feeds` and
PATCH `/api/feeds/:id` handlers:
`full_text.split(separator).map(item => item.trim()).filter(Boolean)`.
The separator is used literally (no placeholder resolution). -/
def serverSplit (full_text separator : String) : List String :=
  ((jsSplit full_text separator).map jsTrim).filter (fun s => s ≠ "")

/-- Placeholder resolution performed by the client modals: the
two-character sequence backslash-n maps to a newline, the four-character
backslash-n-backslash-n to two newlines, anything else is literal. -/
def resolveSeparator (separator : String) : String :=
  let a := if separator = "\\n" then "\n" else separator
  if separator = "\\n\\n" then "\n\n" else a

/-- `splitContent` from the create/edit feed modals: resolve the
separator placeholder, split, trim each item, drop empties. -/
def splitContent (text separator : String) : List String :=
  ((jsSplit text (resolveSeparator separator)).map jsTrim).filter
    (fun s => s.length > 0)

/-- JS `Math.round`: round half toward positive infinity. -/
def jsMathRound (q : ℚ) : ℤ :=
  ⌊q + 1/2⌋

/-- A stored Feed record (shared/schema.ts `feeds` table). -/
structure Feed where
  id : Nat
  name : String
  description : Option String
  full_text : String
  contents : List String
  completed_contents : List String
  separator : String
  created_at : Nat
  updated_at : Nat
  user_id : Nat
  connection_id : Nat
  num_sent : Int
  frequency : String
  active : Bool
deriving DecidableEq

/-- `FeedCard.completionRate`:
`feed.contents.length > 0 ? Math.round((feed.num_sent / feed.contents.length) * 100) : 0`. -/
def completionRate (feed : Feed) : ℤ :=
  if feed.contents.length > 0 then
    jsMathRound (((feed.num_sent : ℚ) / (feed.contents.length : ℚ)) * 100)
  else 0

/-- A stored User record. -/
structure User where
  id : Nat
  username : String
  password : String
  email : String
  name : String
  created_at : Nat
deriving DecidableEq

/-- A stored Connection record. -/
structure Connection where
  id : Nat
  name : String
  url : String
  token : String
  status : String
  user_id : Nat
  icon : String
  created_at : Nat
  updated_at : Nat
  projects : Option String
deriving DecidableEq

/-- Fields accepted by `insertUserSchema`. -/
structure InsertUser where
  username : String
  password : String
  email : String
  name : String
deriving DecidableEq

/-- Fields accepted by `insertConnectionSchema`. -/
structure InsertConnection where
  name : String
  url : String
  token : String
  status : String
  user_id : Nat
  icon : String
  projects : Option String
deriving DecidableEq

/-- Fields accepted by `insertFeedSchema` (note: no `id`, no `num_sent`,
no timestamps). -/
structure InsertFeed where
  name : String
  description : Option String
  full_text : String
  contents : List String
  completed_contents : List String
  separator : String
  user_id : Nat
  connection_id : Nat
  frequency : String
  active : Bool
deriving DecidableEq

/-- `Partial<Connection>`: a JSON patch object; `none` means the key is
absent from the payload. -/
structure ConnPatch where
  id : Option Nat := none
  name : Option String := none
  url : Option String := none
  token : Option String := none
  status : Option String := none
  user_id : Option Nat := none
  icon : Option String := none
  created_at : Option Nat := none
  updated_at : Option Nat := none
  projects : Option (Option String) := none
deriving DecidableEq

/-- `Partial<Feed>`: a JSON patch object; `none` means the key is absent
from the payload. -/
structure FeedPatch where
  id : Option Nat := none
  name : Option String := none
  description : Option (Option String) := none
  full_text : Option String := none
  contents : Option (List String) := none
  completed_contents : Option (List String) := none
  separator : Option String := none
  created_at : Option Nat := none
  updated_at : Option Nat := none
  user_id : Option Nat := none
  connection_id : Option Nat := none
  num_sent : Option Int := none
  frequency : Option String := none
  active : Option Bool := none
deriving DecidableEq

/-- `Map.get`: the value stored under key `k`, if any. -/
def mget {α : Type} : List (Nat × α) → Nat → Option α
  | [], _ => none
  | kv :: t, k => if kv.1 = k then some kv.2 else mget t k

/-- `Map.set`: replace the value under an existing key in place, or
append a new entry (JS `Map` keeps insertion order). -/
def mset {α : Type} : List (Nat × α) → Nat → α → List (Nat × α)
  | [], k, v => [(k, v)]
  | kv :: t, k, v => if kv.1 = k then (k, v) :: t else kv :: mset t k v

/-- `Map.delete`: remove the entry under key `k`. -/
def mdel {α : Type} : List (Nat × α) → Nat → List (Nat × α)
  | [], _ => []
  | kv :: t, k => if kv.1 = k then mdel t k else kv :: mdel t k

/-- `Map.values()` in insertion order. -/
def mvalues {α : Type} (m : List (Nat × α)) : List α :=
  m.map (fun kv => kv.2)

/-- The `MemStorage` instance state: the three entity maps and the three
id counters. -/
structure MemState where
  users : List (Nat × User)
  connections : List (Nat × Connection)
  feeds : List (Nat × Feed)
  userId : Nat
  connectionId : Nat
  feedId : Nat
deriving DecidableEq

def MemState.getUser (st : MemState) (id : Nat) : Option User :=
  mget st.users id

def MemState.createUser (st : MemState) (u : InsertUser) (now : Nat) :
    User × MemState :=
  let id := st.userId
  let user : User :=
    { id := id, username := u.username, password := u.password,
      email := u.email, name := u.name, created_at := now }
  (user, { st with users := mset st.users id user, userId := id + 1 })

def MemState.getConnection (st : MemState) (id : Nat) : Option Connection :=
  mget st.connections id

def MemState.getConnectionsByUserId (st : MemState) (uid : Nat) :
    List Connection :=
  (mvalues st.connections).filter (fun c => c.user_id == uid)

def MemState.createConnection (st : MemState) (c : InsertConnection)
    (now : Nat) : Connection × MemState :=
  let id := st.connectionId
  let conn : Connection :=
    { id := id, name := c.name, url := c.url, token := c.token,
      status := c.status, user_id := c.user_id, icon := c.icon,
      created_at := now, updated_at := now, projects := c.projects }
  (conn, { st with connections := mset st.connections id conn,
                   connectionId := id + 1 })

/-- `{...existing, ...partialConnection, id, updated_at: new Date()}`. -/
def mergeConnection (e : Connection) (p : ConnPatch) (id : Nat)
    (now : Nat) : Connection :=
  { id := id,
    name := p.name.getD e.name,
    url := p.url.getD e.url,
    token := p.token.getD e.token,
    status := p.status.getD e.status,
    user_id := p.user_id.getD e.user_id,
    icon := p.icon.getD e.icon,
    created_at := p.created_at.getD e.created_at,
    updated_at := now,
    projects := p.projects.getD e.projects }

def MemState.updateConnection (st : MemState) (id : Nat) (p : ConnPatch)
    (now : Nat) : Except String (Connection × MemState) :=
  match mget st.connections id with
  | none => .error ("Connection with id " ++ toString id ++ " not found")
  | some existing =>
    let updated := mergeConnection existing p id now
    .ok (updated, { st with connections := mset st.connections id updated })

def MemState.getFeed (st : MemState) (id : Nat) : Option Feed :=
  mget st.feeds id

def MemState.getFeedsByUserId (st : MemState) (uid : Nat) : List Feed :=
  (mvalues st.feeds).filter (fun f => f.user_id == uid)

def MemState.getFeedsByConnectionId (st : MemState) (cid : Nat) :
    List Feed :=
  (mvalues st.feeds).filter (fun f => f.connection_id == cid)

/-- `createFeed`: `{...insertFeed, id, num_sent: 0, created_at: now,
updated_at: now}` under the next sequential id. -/
def MemState.createFeed (st : MemState) (f : InsertFeed) (now : Nat) :
    Feed × MemState :=
  let id := st.feedId
  let feed : Feed :=
    { id := id, name := f.name, description := f.description,
      full_text := f.full_text, contents := f.contents,
      completed_contents := f.completed_contents,
      separator := f.separator, created_at := now, updated_at := now,
      user_id := f.user_id, connection_id := f.connection_id,
      num_sent := 0, frequency := f.frequency, active := f.active }
  (feed, { st with feeds := mset st.feeds id feed, feedId := id + 1 })

/-- `{...existing, ...partialFeed, id, updated_at: new Date()}`. -/
def mergeFeed (e : Feed) (p : FeedPatch) (id : Nat) (now : Nat) : Feed :=
  { id := id,
    name := p.name.getD e.name,
    description := p.description.getD e.description,
    full_text := p.full_text.getD e.full_text,
    contents := p.contents.getD e.contents,
    completed_contents := p.completed_contents.getD e.completed_contents,
    separator := p.separator.getD e.separator,
    created_at := p.created_at.getD e.created_at,
    updated_at := now,
    user_id := p.user_id.getD e.user_id,
    connection_id := p.connection_id.getD e.connection_id,
    num_sent := p.num_sent.getD e.num_sent,
    frequency := p.frequency.getD e.frequency,
    active := p.active.getD e.active }

def MemState.updateFeed (st : MemState) (id : Nat) (p : FeedPatch)
    (now : Nat) : Except String (Feed × MemState) :=
  match mget st.feeds id with
  | none => .error ("Feed with id " ++ toString id ++ " not found")
  | some existing =>
    let updated := mergeFeed existing p id now
    .ok (updated, { st with feeds := mset st.feeds id updated })

def MemState.deleteFeed (st : MemState) (id : Nat) : MemState :=
  { st with feeds := mdel st.feeds id }

/-- `deleteConnection`: first delete every feed whose `connection_id`
equals the target id, then remove the connection. -/
def MemState.deleteConnection (st : MemState) (id : Nat) : MemState :=
  let feedsToDelete := st.getFeedsByConnectionId id
  let st' := feedsToDelete.foldl (fun s f => s.deleteFeed f.id) st
  { st' with connections := mdel st'.connections id }

/-- The store as built by the `MemStorage` constructor: empty maps,
counters at 1, then the admin user is created. -/
def MemState.empty : MemState :=
  { users := [], connections := [], feeds := [],
    userId := 1, connectionId := 1, feedId := 1 }

def MemState.init : MemState :=
  (MemState.empty.createUser
    { username := "admin", password := "admin",
      email := "admin@minimind.com", name := "Admin" } 0).2

/-- An HTTP route outcome: 200/201/204 on success, 404 with a message
body, 401 when unauthenticated, 500 for an uncaught throw. -/
inductive ApiResult (α : Type) where
  | ok (body : α)
  | created (body : α)
  | noContent
  | notFound (msg : String)
  | unauthenticated
  | serverError (msg : String)
deriving DecidableEq

/-- JS truthiness of an optional string field: present and non-empty. -/
def truthy (o : Option String) : Bool :=
  match o with
  | some s => !(s == "")
  | none => false

/-- GET `/api/connections/:id`. -/
def getConnectionRoute (st : MemState) (auth : Option Nat) (cid : Nat) :
    ApiResult Connection × MemState :=
  match auth with
  | none => (.unauthenticated, st)
  | some uid =>
    match st.getConnection cid with
    | none => (.notFound "Connection not found", st)
    | some c =>
      if c.user_id ≠ uid then (.notFound "Connection not found", st)
      else (.ok c, st)

/-- PATCH `/api/connections/:id`. -/
def patchConnectionRoute (st : MemState) (auth : Option Nat) (cid : Nat)
    (p : ConnPatch) (now : Nat) : ApiResult Connection × MemState :=
  match auth with
  | none => (.unauthenticated, st)
  | some uid =>
    match st.getConnection cid with
    | none => (.notFound "Connection not found", st)
    | some c =>
      if c.user_id ≠ uid then (.notFound "Connection not found", st)
      else
        match st.updateConnection cid p now with
        | .ok (c', st') => (.ok c', st')
        | .error e => (.serverError e, st)

/-- DELETE `/api/connections/:id`. -/
def deleteConnectionRoute (st : MemState) (auth : Option Nat) (cid : Nat) :
    ApiResult Connection × MemState :=
  match auth with
  | none => (.unauthenticated, st)
  | some uid =>
    match st.getConnection cid with
    | none => (.notFound "Connection not found", st)
    | some c =>
      if c.user_id ≠ uid then (.notFound "Connection not found", st)
      else (.noContent, st.deleteConnection cid)

/-- The request body the create-feed modal posts: form fields plus the
client-computed `contents` and an empty `completed_contents`. -/
structure CreateFeedBody where
  name : String
  description : Option String
  full_text : String
  separator : String
  frequency : String
  connection_id : Nat
  active : Bool
  contents : List String := []
  completed_contents : List String := []
deriving DecidableEq

/-- POST `/api/feeds`: destructures `full_text` and `separator` out of
the body, recomputes `contents = full_text.split(separator).map(trim)
.filter(Boolean)` (discarding any client-sent `contents`), forces
`completed_contents` to `[]` and `user_id` to the session user, then
stores the feed. -/
def postFeedRoute (st : MemState) (auth : Option Nat)
    (b : CreateFeedBody) (now : Nat) : ApiResult Feed × MemState :=
  match auth with
  | none => (.unauthenticated, st)
  | some uid =>
    let contents := serverSplit b.full_text b.separator
    let insert : InsertFeed :=
      { name := b.name, description := b.description,
        full_text := b.full_text, contents := contents,
        completed_contents := [], separator := b.separator,
        user_id := uid, connection_id := b.connection_id,
        frequency := b.frequency, active := b.active }
    let (feed, st') := st.createFeed insert now
    (.created feed, st')

/-- GET `/api/feeds/:id`. -/
def getFeedRoute (st : MemState) (auth : Option Nat) (fid : Nat) :
    ApiResult Feed × MemState :=
  match auth with
  | none => (.unauthenticated, st)
  | some uid =>
    match st.getFeed fid with
    | none => (.notFound "Feed not found", st)
    | some f =>
      if f.user_id ≠ uid then (.notFound "Feed not found", st)
      else (.ok f, st)

/-- `if (updateData.full_text && updateData.separator)` (JS truthiness):
overwrite `updateData.contents` with the recomputed literal split. -/
def recomputePatch (p : FeedPatch) : FeedPatch :=
  if truthy p.full_text && truthy p.separator then
    { p with contents := some (serverSplit (p.full_text.getD "") (p.separator.getD "")) }
  else p

/-- PATCH `/api/feeds/:id`: ownership check, the conditional `contents`
recomputation on the payload, then the generic merge update. -/
def patchFeedRoute (st : MemState) (auth : Option Nat) (fid : Nat)
    (p : FeedPatch) (now : Nat) : ApiResult Feed × MemState :=
  match auth with
  | none => (.unauthenticated, st)
  | some uid =>
    match st.getFeed fid with
    | none => (.notFound "Feed not found", st)
    | some f =>
      if f.user_id ≠ uid then (.notFound "Feed not found", st)
      else
        match st.updateFeed fid (recomputePatch p) now with
        | .ok (f', st') => (.ok f', st')
        | .error e => (.serverError e, st)

/-- PATCH `/api/feeds/:id/toggle`: ownership check, then a merge update
whose payload holds only `active: !existingFeed.active`. -/
def toggleFeedRoute (st : MemState) (auth : Option Nat) (fid : Nat)
    (now : Nat) : ApiResult Feed × MemState :=
  match auth with
  | none => (.unauthenticated, st)
  | some uid =>
    match st.getFeed fid with
    | none => (.notFound "Feed not found", st)
    | some f =>
      if f.user_id ≠ uid then (.notFound "Feed not found", st)
      else
        match st.updateFeed fid { active := some (!f.active) } now with
        | .ok (f', st') => (.ok f', st')
        | .error e => (.serverError e, st)

/-- DELETE `/api/feeds/:id`. -/
def deleteFeedRoute (st : MemState) (auth : Option Nat) (fid : Nat) :
    ApiResult Feed × MemState :=
  match auth with
  | none => (.unauthenticated, st)
  | some uid =>
    match st.getFeed fid with
    | none => (.notFound "Feed not found", st)
    | some f =>
      if f.user_id ≠ uid then (.notFound "Feed not found", st)
      else (.noContent, st.deleteFeed fid)

/-- A mutating store operation, as invoked by the route layer. -/
inductive StoreOp where
  | createUser (u : InsertUser) (now : Nat)
  | createConnection (c : InsertConnection) (now : Nat)
  | updateConnection (id : Nat) (p : ConnPatch) (now : Nat)
  | deleteConnection (id : Nat)
  | createFeed (f : InsertFeed) (now : Nat)
  | updateFeed (id : Nat) (p : FeedPatch) (now : Nat)
  | deleteFeed (id : Nat)

/-- Run one store operation (a thrown update error leaves the store
unchanged, as the throw happens before any write). -/
def applyOp (st : MemState) : StoreOp → MemState
  | .createUser u now => (st.createUser u now).2
  | .createConnection c now => (st.createConnection c now).2
  | .updateConnection id p now =>
    match st.updateConnection id p now with
    | .ok (_, st') => st'
    | .error _ => st
  | .deleteConnection id => st.deleteConnection id
  | .createFeed f now => (st.createFeed f now).2
  | .updateFeed id p now =>
    match st.updateFeed id p now with
    | .ok (_, st') => st'
    | .error _ => st
  | .deleteFeed id => st.deleteFeed id

/-- The ids handed out by `createFeed` along a run of operations. -/
def feedIdTrace : MemState → List StoreOp → List Nat
  | _, [] => []
  | st, .createFeed f now :: rest =>
    (st.createFeed f now).1.id :: feedIdTrace (st.createFeed f now).2 rest
  | st, op :: rest => feedIdTrace (applyOp st op) rest

/-- The ids handed out by `createConnection` along a run of operations. -/
def connIdTrace : MemState → List StoreOp → List Nat
  | _, [] => []
  | st, .createConnection c now :: rest =>
    (st.createConnection c now).1.id ::
      connIdTrace (st.createConnection c now).2 rest
  | st, op :: rest => connIdTrace (applyOp st op) rest

/-- The ids handed out by `createUser` along a run of operations. -/
def userIdTrace : MemState → List StoreOp → List Nat
  | _, [] => []
  | st, .createUser u now :: rest =>
    (st.createUser u now).1.id :: userIdTrace (st.createUser u now).2 rest
  | st, op :: rest => userIdTrace (applyOp st op) rest

/-- Well-formedness of the feed map, maintained by every store write:
keys are distinct and each stored feed's `id` field equals its key. -/
def WFFeeds (st : MemState) : Prop :=
  (st.feeds.map (fun kv => kv.1)).Nodup ∧ ∀ kv ∈ st.feeds, kv.2.id = kv.1

instance (st : MemState) : Decidable (WFFeeds st) := by
  unfold WFFeeds; infer_instance

/-! ### Concrete sample data used by witnesses and counterexamples -/

/-- A feed record with the given id, owner, connection, contents and
`num_sent`; the remaining fields are fixed innocuous values. -/
def mkFeed (id uid cid : Nat) (contents : List String) (ns : Int) : Feed :=
  { id := id, name := "f", description := none, full_text := "t",
    contents := contents, completed_contents := [], separator := ",",
    created_at := 0, updated_at := 0, user_id := uid,
    connection_id := cid, num_sent := ns, frequency := "Daily",
    active := true }

/-- A connection record with the given id and owner. -/
def mkConnection (id uid : Nat) : Connection :=
  { id := id, name := "c", url := "u", token := "t",
    status := "Connected", user_id := uid, icon := "i",
    created_at := 0, updated_at := 0, projects := none }

/-- A small populated store: one user owning two connections, each with
one feed. -/
def baseStore : MemState :=
  { users := [(1, { id := 1, username := "admin", password := "admin",
                    email := "admin@minimind.com", name := "Admin",
                    created_at := 0 })],
    connections := [(1, mkConnection 1 1), (2, mkConnection 2 1)],
    feeds := [(1, mkFeed 1 1 1 ["old"] 0), (2, mkFeed 2 1 2 ["keep"] 0)],
    userId := 2, connectionId := 3, feedId := 3 }

/-- The body the create-feed modal would post for full text `"x\ny"`
with the newline-placeholder separator (the client sends its own
correctly split `contents`). -/
def c1Body : CreateFeedBody :=
  { name := "n", description := none, full_text := "x\ny",
    separator := "\\n", frequency := "Daily", connection_id := 1,
    active := true, contents := ["x", "y"], completed_contents := [] }

/-- The feed the server actually stores for `c1Body`. -/
def c1Stored : Feed :=
  { id := 3, name := "n", description := none, full_text := "x\ny",
    contents := ["x\ny"], completed_contents := [], separator := "\\n",
    created_at := 7, updated_at := 7, user_id := 1, connection_id := 1,
    num_sent := 0, frequency := "Daily", active := true }

/-- An update payload carrying both `full_text` and `separator`, with an
empty `full_text` (falsy in JS). -/
def c2Patch : FeedPatch :=
  { full_text := some "", separator := some "," }

/-- What the PATCH handler stores for `c2Patch` on feed 1 of
`baseStore`: the merge with no contents recomputation. -/
def c2Result : Feed :=
  { mkFeed 1 1 1 ["old"] 0 with full_text := "", separator := ",",
                                updated_at := 5 }

/-- A feed whose `num_sent` exceeds its item count. -/
def c5Feed : Feed := mkFeed 1 1 1 ["a"] 2

/-- An update payload that supplies only `updated_at`. -/
def c10Patch : FeedPatch := { updated_at := some 99 }

/-- What `updateFeed` stores for `c10Patch` on feed 1 of `baseStore`. -/
def c10Result : Feed := { mkFeed 1 1 1 ["old"] 0 with updated_at := 5 }

/-- An update payload supplying `id`, `user_id` and `created_at`. -/
def c10wPatch : FeedPatch :=
  { id := some 77, user_id := some 9, created_at := some 42 }

/-- What `updateFeed` stores for `c10wPatch` on feed 1 of `baseStore`. -/
def c10wResult : Feed :=
  { mkFeed 1 1 1 ["old"] 0 with user_id := 9, created_at := 42,
                                updated_at := 5 }

/-- The store after that update. -/
def c10wState : MemState :=
  { baseStore with feeds := [(1, c10wResult), (2, mkFeed 2 1 2 ["keep"] 0)] }

/-- A connection update payload supplying `id` and `user_id`. -/
def c10cPatch : ConnPatch := { id := some 77, user_id := some 9 }

/-- What `updateConnection` stores for `c10cPatch` on connection 2 of
`baseStore`. -/
def c10cResult : Connection :=
  { mkConnection 2 1 with user_id := 9, updated_at := 5 }

/-- The store after that connection update. -/
def c10cState : MemState :=
  { baseStore with connections := [(1, mkConnection 1 1), (2, c10cResult)] }

/-- A sample insert payload for the id-reuse scenario. -/
def sampleInsertFeed : InsertFeed :=
  { name := "s", description := none, full_text := "a,b",
    contents := ["a", "b"], completed_contents := [], separator := ",",
    user_id := 1, connection_id := 1, frequency := "Daily",
    active := true }

/-! ### Helper lemmas about trimming -/

theorem dropWhile_self_idem {α : Type} (p : α → Bool) (l : List α) :
    (l.dropWhile p).dropWhile p = l.dropWhile p := by
  induction l with
  | nil => rfl
  | cons a t ih =>
    by_cases h : p a
    · simp [List.dropWhile_cons, h, ih]
    · simp [List.dropWhile_cons, h]

theorem dropWhile_head?_false {α : Type} {p : α → Bool} {l : List α} {a : α}
    (h : (l.dropWhile p).head? = some a) : p a = false := by
  induction l with
  | nil => simp at h
  | cons x t ih =>
    rw [List.dropWhile_cons] at h
    cases hpx : p x with
    | true =>
      simp only [hpx, if_true] at h
      exact ih h
    | false =>
      simp only [hpx] at h
      have hxa : x = a := by simpa using h
      rw [← hxa]
      exact hpx

theorem dropWhile_eq_self_of_head?_false {α : Type} {p : α → Bool}
    {l : List α} (h : ∀ a, l.head? = some a → p a = false) :
    l.dropWhile p = l := by
  cases l with
  | nil => rfl
  | cons x t =>
    have hx := h x (by simp)
    simp [List.dropWhile_cons, hx]

theorem jsTrimList_idem (l : List Char) :
    jsTrimList (jsTrimList l) = jsTrimList l := by
  obtain ⟨s, hs⟩ :
      List.dropWhile isJsWs (List.dropWhile isJsWs l).reverse <:+
        (List.dropWhile isJsWs l).reverse := List.dropWhile_suffix isJsWs
  have hm2 : List.dropWhile isJsWs l =
      (List.dropWhile isJsWs (List.dropWhile isJsWs l).reverse).reverse ++
        s.reverse := by
    rw [← List.reverse_append, hs, List.reverse_reverse]
  have hfront : List.dropWhile isJsWs
      (List.dropWhile isJsWs (List.dropWhile isJsWs l).reverse).reverse =
      (List.dropWhile isJsWs (List.dropWhile isJsWs l).reverse).reverse := by
    apply dropWhile_eq_self_of_head?_false
    intro a ha
    apply dropWhile_head?_false
      (show (List.dropWhile isJsWs l).head? = some a from ?_)
    rw [hm2, List.head?_append, ha]
    rfl
  unfold jsTrimList
  rw [hfront, List.reverse_reverse, dropWhile_self_idem]

theorem jsTrim_idem (s : String) : jsTrim (jsTrim s) = jsTrim s := by
  unfold jsTrim
  exact congrArg String.mk (jsTrimList_idem s.data)

theorem jsTrim_data (s : String) : (jsTrim s).data = jsTrimList s.data := rfl

theorem jsTrimList_eq_nil_of_all_ws {l : List Char}
    (h : ∀ c ∈ l, isJsWs c = true) : jsTrimList l = [] := by
  unfold jsTrimList
  rw [List.dropWhile_eq_nil_iff.mpr h]
  rfl

/-! ### Helper lemmas about the map operations -/

theorem mget_mset_self {α : Type} (m : List (Nat × α)) (k : Nat) (v : α) :
    mget (mset m k v) k = some v := by
  induction m with
  | nil => simp [mset, mget]
  | cons kv t ih =>
    by_cases hk : kv.1 = k
    · simp [mset, mget, hk]
    · simp [mset, mget, hk, ih]

theorem mget_mset_ne {α : Type} (m : List (Nat × α)) {k k' : Nat} (v : α)
    (hne : k' ≠ k) : mget (mset m k v) k' = mget m k' := by
  induction m with
  | nil =>
    simp only [mset, mget]
    rw [if_neg (Ne.symm hne)]
  | cons kv t ih =>
    by_cases hk : kv.1 = k
    · simp only [mset, if_pos hk, mget]
      rw [if_neg (Ne.symm hne), if_neg (by rw [hk]; exact Ne.symm hne)]
    · simp only [mset, if_neg hk, mget]
      by_cases hk' : kv.1 = k'
      · rw [if_pos hk', if_pos hk']
      · rw [if_neg hk', if_neg hk']
        exact ih

theorem mget_mdel_self {α : Type} (m : List (Nat × α)) (k : Nat) :
    mget (mdel m k) k = none := by
  induction m with
  | nil => rfl
  | cons kv t ih =>
    by_cases hk : kv.1 = k
    · simpa [mdel, hk] using ih
    · simpa [mdel, mget, hk] using ih

theorem mget_mdel_ne {α : Type} (m : List (Nat × α)) {k k' : Nat}
    (hne : k' ≠ k) : mget (mdel m k) k' = mget m k' := by
  induction m with
  | nil => rfl
  | cons kv t ih =>
    by_cases hk : kv.1 = k
    · have hk' : kv.1 ≠ k' := by rw [hk]; exact fun h => hne h.symm
      simp only [mdel, if_pos hk, mget, if_neg hk']
      exact ih
    · by_cases hk' : kv.1 = k'
      · simp only [mdel, if_neg hk, mget, if_pos hk']
      · simp only [mdel, if_neg hk, mget, if_neg hk']
        exact ih

theorem mdel_eq_filter {α : Type} (m : List (Nat × α)) (k : Nat) :
    mdel m k = m.filter (fun kv => !(kv.1 == k)) := by
  induction m with
  | nil => rfl
  | cons kv t ih =>
    by_cases hk : kv.1 = k
    · simp [mdel, List.filter_cons, hk, ih]
    · simp [mdel, List.filter_cons, hk, ih]

theorem mget_of_mem_nodup {α : Type} {m : List (Nat × α)} {k : Nat} {v : α}
    (hnd : (m.map (fun kv => kv.1)).Nodup) (hmem : (k, v) ∈ m) :
    mget m k = some v := by
  induction m with
  | nil => simp at hmem
  | cons kv t ih =>
    rw [List.map_cons, List.nodup_cons] at hnd
    rcases List.mem_cons.mp hmem with heq | hmem'
    · rw [← heq]
      simp [mget]
    · have hk : kv.1 ≠ k := by
        intro h1
        exact hnd.1 (h1 ▸ List.mem_map_of_mem (fun kv => kv.1) hmem')
      simp only [mget, if_neg hk]
      exact ih hnd.2 hmem'

theorem mem_of_mget_eq_some {α : Type} {m : List (Nat × α)} {k : Nat} {v : α}
    (h : mget m k = some v) : (k, v) ∈ m := by
  induction m with
  | nil => simp [mget] at h
  | cons kv t ih =>
    by_cases hk : kv.1 = k
    · simp only [mget, if_pos hk] at h
      have hv : kv.2 = v := by simpa using h
      rw [← hk, ← hv]
      exact List.mem_cons_self kv t
    · simp only [mget, if_neg hk] at h
      exact List.mem_cons_of_mem kv (ih h)

theorem mget_eq_none_of_all {α : Type} {m : List (Nat × α)} {k : Nat}
    (h : ∀ kv ∈ m, kv.1 ≠ k) : mget m k = none := by
  induction m with
  | nil => rfl
  | cons kv t ih =>
    simp only [mget, if_neg (h kv (List.mem_cons_self kv t))]
    exact ih (fun kv' hkv' => h kv' (List.mem_cons_of_mem kv hkv'))

theorem key_inj_of_nodup {α : Type} {m : List (Nat × α)} {k : Nat} {a b : α}
    (hnd : (m.map (fun kv => kv.1)).Nodup) (ha : (k, a) ∈ m)
    (hb : (k, b) ∈ m) : a = b := by
  have h1 := mget_of_mem_nodup hnd ha
  have h2 := mget_of_mem_nodup hnd hb
  rw [h1] at h2
  simpa using h2

/-! ### Helper lemmas about the delete-connection cascade -/

theorem foldDelete_connections (L : List Feed) (st : MemState) :
    (L.foldl (fun s f => s.deleteFeed f.id) st).connections =
      st.connections := by
  induction L generalizing st with
  | nil => rfl
  | cons a t ih => exact ih (st.deleteFeed a.id)

theorem foldDelete_users (L : List Feed) (st : MemState) :
    (L.foldl (fun s f => s.deleteFeed f.id) st).users = st.users := by
  induction L generalizing st with
  | nil => rfl
  | cons a t ih => exact ih (st.deleteFeed a.id)

theorem foldDelete_feeds (L : List Feed) (st : MemState) :
    (L.foldl (fun s f => s.deleteFeed f.id) st).feeds =
      st.feeds.filter (fun kv => !(L.any (fun f => f.id == kv.1))) := by
  induction L generalizing st with
  | nil => simp
  | cons a t ih =>
    show (t.foldl (fun s f => s.deleteFeed f.id) (st.deleteFeed a.id)).feeds = _
    rw [ih (st.deleteFeed a.id)]
    show ((mdel st.feeds a.id).filter _) = _
    rw [mdel_eq_filter, List.filter_filter]
    apply List.filter_congr
    intro kv _
    by_cases h : a.id = kv.1
    · simp [h]
    · have hb1 : (kv.1 == a.id) = false := by
        simpa using fun hc => h hc.symm
      have hb2 : (a.id == kv.1) = false := by simpa using h
      simp [hb1, hb2]

/-! ### Helper lemmas about the id counters -/

theorem applyOp_feedId_le (st : MemState) (op : StoreOp) :
    st.feedId ≤ (applyOp st op).feedId := by
  cases op with
  | createFeed f now => exact Nat.le_succ st.feedId
  | updateFeed id p now =>
    simp only [applyOp, MemState.updateFeed]
    cases mget st.feeds id <;> simp
  | updateConnection id p now =>
    simp only [applyOp, MemState.updateConnection]
    cases mget st.connections id <;> simp
  | deleteConnection id =>
    simp only [applyOp, MemState.deleteConnection]
    rw [show ∀ s : MemState, ({ s with connections := mdel s.connections id } : MemState).feedId = s.feedId from fun _ => rfl]
    rw [show ((MemState.getFeedsByConnectionId st id).foldl (fun s f => s.deleteFeed f.id) st).feedId = st.feedId from ?_]
    · generalize MemState.getFeedsByConnectionId st id = L
      induction L generalizing st with
      | nil => rfl
      | cons a t ih => exact ih (st.deleteFeed a.id)
  | _ => exact Nat.le_refl _

theorem applyOp_connectionId_le (st : MemState) (op : StoreOp) :
    st.connectionId ≤ (applyOp st op).connectionId := by
  cases op with
  | createConnection c now => exact Nat.le_succ st.connectionId
  | updateFeed id p now =>
    simp only [applyOp, MemState.updateFeed]
    cases mget st.feeds id <;> simp
  | updateConnection id p now =>
    simp only [applyOp, MemState.updateConnection]
    cases mget st.connections id <;> simp
  | deleteConnection id =>
    simp only [applyOp, MemState.deleteConnection]
    rw [show ((MemState.getFeedsByConnectionId st id).foldl (fun s f => s.deleteFeed f.id) st).connectionId = st.connectionId from ?_]
    · generalize MemState.getFeedsByConnectionId st id = L
      induction L generalizing st with
      | nil => rfl
      | cons a t ih => exact ih (st.deleteFeed a.id)
  | _ => exact Nat.le_refl _

theorem applyOp_userId_le (st : MemState) (op : StoreOp) :
    st.userId ≤ (applyOp st op).userId := by
  cases op with
  | createUser u now => exact Nat.le_succ st.userId
  | updateFeed id p now =>
    simp only [applyOp, MemState.updateFeed]
    cases mget st.feeds id <;> simp
  | updateConnection id p now =>
    simp only [applyOp, MemState.updateConnection]
    cases mget st.connections id <;> simp
  | deleteConnection id =>
    simp only [applyOp, MemState.deleteConnection]
    rw [show ((MemState.getFeedsByConnectionId st id).foldl (fun s f => s.deleteFeed f.id) st).userId = st.userId from ?_]
    · generalize MemState.getFeedsByConnectionId st id = L
      induction L generalizing st with
      | nil => rfl
      | cons a t ih => exact ih (st.deleteFeed a.id)
  | _ => exact Nat.le_refl _

theorem feedIdTrace_sorted_bounded (ops : List StoreOp) :
    ∀ st : MemState, List.Pairwise (· < ·) (feedIdTrace st ops) ∧
      ∀ i ∈ feedIdTrace st ops, st.feedId ≤ i := by
  induction ops with
  | nil =>
    intro st
    exact ⟨List.Pairwise.nil, by simp [feedIdTrace]⟩
  | cons op rest ih =>
    intro st
    cases op with
    | createFeed f now =>
      obtain ⟨hp, hb⟩ := ih (st.createFeed f now).2
      have hfe : (st.createFeed f now).2.feedId = st.feedId + 1 := rfl
      rw [hfe] at hb
      refine ⟨?_, ?_⟩
      · rw [feedIdTrace]
        exact List.Pairwise.cons
          (fun i hi => Nat.lt_of_succ_le (hb i hi)) hp
      · rw [feedIdTrace]
        intro i hi
        rcases List.mem_cons.mp hi with h | h
        · exact Nat.le_of_eq h.symm
        · exact Nat.le_trans (Nat.le_succ _) (hb i h)
    | createUser u now =>
      obtain ⟨hp, hb⟩ := ih (applyOp st (.createUser u now))
      exact ⟨hp, fun i hi =>
        Nat.le_trans (applyOp_feedId_le st (.createUser u now)) (hb i hi)⟩
    | createConnection c now =>
      obtain ⟨hp, hb⟩ := ih (applyOp st (.createConnection c now))
      exact ⟨hp, fun i hi =>
        Nat.le_trans (applyOp_feedId_le st (.createConnection c now)) (hb i hi)⟩
    | updateConnection id p now =>
      obtain ⟨hp, hb⟩ := ih (applyOp st (.updateConnection id p now))
      exact ⟨hp, fun i hi =>
        Nat.le_trans (applyOp_feedId_le st (.updateConnection id p now)) (hb i hi)⟩
    | deleteConnection id =>
      obtain ⟨hp, hb⟩ := ih (applyOp st (.deleteConnection id))
      exact ⟨hp, fun i hi =>
        Nat.le_trans (applyOp_feedId_le st (.deleteConnection id)) (hb i hi)⟩
    | updateFeed id p now =>
      obtain ⟨hp, hb⟩ := ih (applyOp st (.updateFeed id p now))
      exact ⟨hp, fun i hi =>
        Nat.le_trans (applyOp_feedId_le st (.updateFeed id p now)) (hb i hi)⟩
    | deleteFeed id =>
      obtain ⟨hp, hb⟩ := ih (applyOp st (.deleteFeed id))
      exact ⟨hp, fun i hi =>
        Nat.le_trans (applyOp_feedId_le st (.deleteFeed id)) (hb i hi)⟩

theorem connIdTrace_sorted_bounded (ops : List StoreOp) :
    ∀ st : MemState, List.Pairwise (· < ·) (connIdTrace st ops) ∧
      ∀ i ∈ connIdTrace st ops, st.connectionId ≤ i := by
  induction ops with
  | nil =>
    intro st
    exact ⟨List.Pairwise.nil, by simp [connIdTrace]⟩
  | cons op rest ih =>
    intro st
    cases op with
    | createConnection c now =>
      obtain ⟨hp, hb⟩ := ih (st.createConnection c now).2
      have hfe : (st.createConnection c now).2.connectionId =
          st.connectionId + 1 := rfl
      rw [hfe] at hb
      refine ⟨?_, ?_⟩
      · rw [connIdTrace]
        exact List.Pairwise.cons
          (fun i hi => Nat.lt_of_succ_le (hb i hi)) hp
      · rw [connIdTrace]
        intro i hi
        rcases List.mem_cons.mp hi with h | h
        · exact Nat.le_of_eq h.symm
        · exact Nat.le_trans (Nat.le_succ _) (hb i h)
    | createUser u now =>
      obtain ⟨hp, hb⟩ := ih (applyOp st (.createUser u now))
      exact ⟨hp, fun i hi =>
        Nat.le_trans (applyOp_connectionId_le st (.createUser u now)) (hb i hi)⟩
    | createFeed f now =>
      obtain ⟨hp, hb⟩ := ih (applyOp st (.createFeed f now))
      exact ⟨hp, fun i hi =>
        Nat.le_trans (applyOp_connectionId_le st (.createFeed f now)) (hb i hi)⟩
    | updateConnection id p now =>
      obtain ⟨hp, hb⟩ := ih (applyOp st (.updateConnection id p now))
      exact ⟨hp, fun i hi =>
        Nat.le_trans (applyOp_connectionId_le st (.updateConnection id p now)) (hb i hi)⟩
    | deleteConnection id =>
      obtain ⟨hp, hb⟩ := ih (applyOp st (.deleteConnection id))
      exact ⟨hp, fun i hi =>
        Nat.le_trans (applyOp_connectionId_le st (.deleteConnection id)) (hb i hi)⟩
    | updateFeed id p now =>
      obtain ⟨hp, hb⟩ := ih (applyOp st (.updateFeed id p now))
      exact ⟨hp, fun i hi =>
        Nat.le_trans (applyOp_connectionId_le st (.updateFeed id p now)) (hb i hi)⟩
    | deleteFeed id =>
      obtain ⟨hp, hb⟩ := ih (applyOp st (.deleteFeed id))
      exact ⟨hp, fun i hi =>
        Nat.le_trans (applyOp_connectionId_le st (.deleteFeed id)) (hb i hi)⟩

theorem userIdTrace_sorted_bounded (ops : List StoreOp) :
    ∀ st : MemState, List.Pairwise (· < ·) (userIdTrace st ops) ∧
      ∀ i ∈ userIdTrace st ops, st.userId ≤ i := by
  induction ops with
  | nil =>
    intro st
    exact ⟨List.Pairwise.nil, by simp [userIdTrace]⟩
  | cons op rest ih =>
    intro st
    cases op with
    | createUser u now =>
      obtain ⟨hp, hb⟩ := ih (st.createUser u now).2
      have hfe : (st.createUser u now).2.userId = st.userId + 1 := rfl
      rw [hfe] at hb
      refine ⟨?_, ?_⟩
      · rw [userIdTrace]
        exact List.Pairwise.cons
          (fun i hi => Nat.lt_of_succ_le (hb i hi)) hp
      · rw [userIdTrace]
        intro i hi
        rcases List.mem_cons.mp hi with h | h
        · exact Nat.le_of_eq h.symm
        · exact Nat.le_trans (Nat.le_succ _) (hb i h)
    | createConnection c now =>
      obtain ⟨hp, hb⟩ := ih (applyOp st (.createConnection c now))
      exact ⟨hp, fun i hi =>
        Nat.le_trans (applyOp_userId_le st (.createConnection c now)) (hb i hi)⟩
    | createFeed f now =>
      obtain ⟨hp, hb⟩ := ih (applyOp st (.createFeed f now))
      exact ⟨hp, fun i hi =>
        Nat.le_trans (applyOp_userId_le st (.createFeed f now)) (hb i hi)⟩
    | updateConnection id p now =>
      obtain ⟨hp, hb⟩ := ih (applyOp st (.updateConnection id p now))
      exact ⟨hp, fun i hi =>
        Nat.le_trans (applyOp_userId_le st (.updateConnection id p now)) (hb i hi)⟩
    | deleteConnection id =>
      obtain ⟨hp, hb⟩ := ih (applyOp st (.deleteConnection id))
      exact ⟨hp, fun i hi =>
        Nat.le_trans (applyOp_userId_le st (.deleteConnection id)) (hb i hi)⟩
    | updateFeed id p now =>
      obtain ⟨hp, hb⟩ := ih (applyOp st (.updateFeed id p now))
      exact ⟨hp, fun i hi =>
        Nat.le_trans (applyOp_userId_le st (.updateFeed id p now)) (hb i hi)⟩
    | deleteFeed id =>
      obtain ⟨hp, hb⟩ := ih (applyOp st (.deleteFeed id))
      exact ⟨hp, fun i hi =>
        Nat.le_trans (applyOp_userId_le st (.deleteFeed id)) (hb i hi)⟩

/-! ### Claim theorems -/

/-- Claim C6: `completionPercent(feed)` equals
`round(num_sent / contents.length * 100)` when `contents.length > 0`,
and equals `0` when `contents.length == 0` (no division-by-zero). -/
theorem c6_completion_rate_formula (f : Feed) :
    (0 < f.contents.length →
      completionRate f =
        ⌊(f.num_sent : ℚ) / (f.contents.length : ℚ) * 100 + 1/2⌋) ∧
    (f.contents.length = 0 → completionRate f = 0) := by
  constructor
  · intro h
    unfold completionRate
    rw [if_pos h]
    rfl
  · intro h
    unfold completionRate
    rw [if_neg (by omega)]

/-- Witness for C6 at a concrete feed with three items, one sent. -/
theorem c6_completion_rate_formula_witness :
    0 < (mkFeed 1 1 1 ["a", "b", "c"] 1).contents.length ∧
    completionRate (mkFeed 1 1 1 ["a", "b", "c"] 1) =
      ⌊((mkFeed 1 1 1 ["a", "b", "c"] 1).num_sent : ℚ) /
        ((mkFeed 1 1 1 ["a", "b", "c"] 1).contents.length : ℚ) * 100 + 1/2⌋ :=
  ⟨by decide, (c6_completion_rate_formula (mkFeed 1 1 1 ["a", "b", "c"] 1)).1
    (by decide)⟩

/-- Counterexample to claim C5 as stated: the feed with one content item
and `num_sent = 2` has `num_sent ≥ 0` but `completionPercent = 200`,
outside `[0,100]` (the source never clamps `num_sent`). -/
theorem c5_counterexample :
    completionRate c5Feed = 200 ∧ 0 ≤ c5Feed.num_sent ∧
      ¬completionRate c5Feed ≤ 100 := by
  have h : completionRate c5Feed = 200 := by
    unfold completionRate c5Feed mkFeed jsMathRound
    norm_num
  exact ⟨h, by decide, by rw [h]; decide⟩

/-- Claim C5, amended: `completionPercent` is monotonically
non-decreasing in `num_sent` for fixed `contents.length`, and lies in
`[0,100]` whenever `0 ≤ num_sent ≤ contents.length` (the stated bound
fails without the upper-bound hypothesis, which the source does not
enforce). -/
theorem c5_amended :
    (∀ f g : Feed, f.contents.length = g.contents.length →
      f.num_sent ≤ g.num_sent → completionRate f ≤ completionRate g) ∧
    (∀ f : Feed, 0 ≤ f.num_sent →
      f.num_sent ≤ (f.contents.length : Int) →
      0 ≤ completionRate f ∧ completionRate f ≤ 100) := by
  constructor
  · intro f g hlen hns
    unfold completionRate jsMathRound
    by_cases h : 0 < f.contents.length
    · rw [if_pos h, if_pos (hlen ▸ h), ← hlen]
      apply Int.floor_le_floor
      have hlpos : (0 : ℚ) < (f.contents.length : ℚ) := by exact_mod_cast h
      have hq : (f.num_sent : ℚ) ≤ (g.num_sent : ℚ) := by exact_mod_cast hns
      gcongr
    · rw [if_neg h, if_neg (hlen ▸ h)]
  · intro f h0 hub
    unfold completionRate jsMathRound
    by_cases h : 0 < f.contents.length
    · rw [if_pos h]
      have hlpos : (0 : ℚ) < (f.contents.length : ℚ) := by exact_mod_cast h
      have h0q : (0 : ℚ) ≤ (f.num_sent : ℚ) := by exact_mod_cast h0
      have hx : (0 : ℚ) ≤ (f.num_sent : ℚ) / (f.contents.length : ℚ) * 100 := by
        positivity
      have hub2 : (f.num_sent : ℚ) / (f.contents.length : ℚ) * 100 ≤ 100 := by
        have hq : (f.num_sent : ℚ) ≤ (f.contents.length : ℚ) := by
          exact_mod_cast hub
        have hd : (f.num_sent : ℚ) / (f.contents.length : ℚ) ≤ 1 :=
          (div_le_one hlpos).mpr hq
        linarith
      constructor
      · exact Int.le_floor.mpr (by push_cast; linarith)
      · calc ⌊(f.num_sent : ℚ) / (f.contents.length : ℚ) * 100 + 1/2⌋ ≤
            ⌊(100 : ℚ) + 1/2⌋ := Int.floor_le_floor (by linarith)
        _ = 100 := by norm_num
    · rw [if_neg h]
      exact ⟨le_refl 0, by norm_num⟩

/-- Witness for the amended C5 at two concrete two-item feeds. -/
theorem c5_amended_witness :
    (mkFeed 1 1 1 ["a", "b"] 1).contents.length =
      (mkFeed 2 1 1 ["c", "d"] 2).contents.length ∧
    (mkFeed 1 1 1 ["a", "b"] 1).num_sent ≤ (mkFeed 2 1 1 ["c", "d"] 2).num_sent ∧
    completionRate (mkFeed 1 1 1 ["a", "b"] 1) ≤
      completionRate (mkFeed 2 1 1 ["c", "d"] 2) ∧
    0 ≤ (mkFeed 1 1 1 ["a", "b"] 1).num_sent ∧
    (mkFeed 1 1 1 ["a", "b"] 1).num_sent ≤
      ((mkFeed 1 1 1 ["a", "b"] 1).contents.length : Int) ∧
    0 ≤ completionRate (mkFeed 1 1 1 ["a", "b"] 1) ∧
    completionRate (mkFeed 1 1 1 ["a", "b"] 1) ≤ 100 :=
  ⟨by decide, by decide,
    c5_amended.1 (mkFeed 1 1 1 ["a", "b"] 1) (mkFeed 2 1 1 ["c", "d"] 2)
      (by decide) (by decide),
    by decide, by decide,
    (c5_amended.2 (mkFeed 1 1 1 ["a", "b"] 1) (by decide) (by decide)).1,
    (c5_amended.2 (mkFeed 1 1 1 ["a", "b"] 1) (by decide) (by decide)).2⟩

/-- Claim C7: every element of a split (in both the server handler's
split and the client modals' `splitContent`) is non-empty, equal to its
own trim, and contains a non-whitespace character. -/
theorem c7_split_elements_trimmed_nonempty (ft sep : String) :
    (∀ e ∈ serverSplit ft sep,
      e ≠ "" ∧ jsTrim e = e ∧ ∃ c ∈ e.data, isJsWs c = false) ∧
    (∀ e ∈ splitContent ft sep,
      e ≠ "" ∧ jsTrim e = e ∧ ∃ c ∈ e.data, isJsWs c = false) := by
  have post : ∀ (l : List String) (e : String), e ∈ l.map jsTrim → e ≠ "" →
      jsTrim e = e ∧ ∃ c ∈ e.data, isJsWs c = false := by
    intro l e he hne
    obtain ⟨x, _, hx⟩ := List.mem_map.mp he
    have hidem : jsTrim e = e := by rw [← hx]; exact jsTrim_idem x
    refine ⟨hidem, ?_⟩
    by_contra hcon
    push_neg at hcon
    have hall : ∀ c ∈ e.data, isJsWs c = true := by
      intro c hc
      have := hcon c hc
      cases hw : isJsWs c with
      | true => rfl
      | false => exact absurd hw this
    have hempty : jsTrim e = "" := by
      unfold jsTrim
      rw [jsTrimList_eq_nil_of_all_ws hall]
    rw [hidem] at hempty
    exact hne hempty
  constructor
  · intro e he
    rcases List.mem_filter.mp he with ⟨hmem, hp⟩
    have hne : e ≠ "" := of_decide_eq_true hp
    exact ⟨hne, post _ e hmem hne⟩
  · intro e he
    rcases List.mem_filter.mp he with ⟨hmem, hp⟩
    have hlen : e.length > 0 := of_decide_eq_true hp
    have hne : e ≠ "" := by
      intro h
      rw [h] at hlen
      simp at hlen
    exact ⟨hne, post _ e hmem hne⟩

/-- Witness for C7 at the spec scenario `split("a, b ,,c", ",")`. -/
theorem c7_split_elements_trimmed_nonempty_witness :
    serverSplit "a, b ,,c" "," = ["a", "b", "c"] ∧
    "a" ∈ serverSplit "a, b ,,c" "," ∧
    ("a" ≠ "" ∧ jsTrim "a" = "a" ∧ ∃ c ∈ "a".data, isJsWs c = false) :=
  ⟨by decide, by decide,
    (c7_split_elements_trimmed_nonempty "a, b ,,c" ",").1 "a" (by decide)⟩

/-- Claim C8: each entity kind's create assigns strictly increasing ids
along any run of store operations, regardless of deletes; in particular
create, delete, create on a fresh store yields the distinct ids 1 and 2. -/
theorem c8_ids_never_reused :
    (∀ (st : MemState) (ops : List StoreOp),
      List.Pairwise (· < ·) (feedIdTrace st ops)) ∧
    (∀ (st : MemState) (ops : List StoreOp),
      List.Pairwise (· < ·) (connIdTrace st ops)) ∧
    (∀ (st : MemState) (ops : List StoreOp),
      List.Pairwise (· < ·) (userIdTrace st ops)) ∧
    feedIdTrace MemState.init
      [.createFeed sampleInsertFeed 0, .deleteFeed 1,
        .createFeed sampleInsertFeed 0] = [1, 2] :=
  ⟨fun st ops => (feedIdTrace_sorted_bounded ops st).1,
    fun st ops => (connIdTrace_sorted_bounded ops st).1,
    fun st ops => (userIdTrace_sorted_bounded ops st).1,
    by decide⟩

/-- Claim C1 (code bug): the client splitter resolves the `"\\n"`
placeholder and yields `["x","y"]`, but the POST `/api/feeds` handler
re-splits `full_text` on the literal two-character separator and stores
`contents = ["x\ny"]` — the stored feed contradicts the claim (and the
client-side preview), while `num_sent = 0` and `completionPercent = 0`
do hold. -/
theorem c1_create_stores_literal_split :
    splitContent "x\ny" "\\n" = ["x", "y"] ∧
    c1Body.contents = ["x", "y"] ∧
    (postFeedRoute baseStore (some 1) c1Body 7).1 = .created c1Stored ∧
    (postFeedRoute baseStore (some 1) c1Body 7).2.getFeed 3 = some c1Stored ∧
    c1Stored.contents = ["x\ny"] ∧
    c1Stored.num_sent = 0 ∧
    completionRate c1Stored = 0 ∧
    c1Stored.contents ≠ ["x", "y"] := by
  refine ⟨by decide, by decide, by decide, by decide, by decide, by decide,
    ?_, by decide⟩
  unfold completionRate c1Stored jsMathRound
  norm_num

/-- Counterexample to claim C2 as stated: a payload carrying both
`full_text` (empty string) and `separator` skips the recomputation —
JS truthiness, not mere presence, guards it — leaving `contents` stale
instead of the recomputed empty list. -/
theorem c2_counterexample :
    c2Patch.full_text = some "" ∧ c2Patch.separator = some "," ∧
    (patchFeedRoute baseStore (some 1) 1 c2Patch 5).1 = .ok c2Result ∧
    c2Result.contents = ["old"] ∧
    serverSplit "" "," = [] ∧
    c2Result.contents ≠ serverSplit "" "," := by
  exact ⟨by decide, by decide, by decide, by decide, by decide, by decide⟩

/-- Claim C2, amended: when the payload supplies both `full_text` and
`separator` as non-empty strings, the PATCH handler recomputes
`contents` as the literal split before persisting (overriding any
payload `contents`); when either is absent or empty, no recomputation
happens and the payload is merged as-is, so `contents` stays stale
unless the payload itself carries a `contents` field. -/
theorem c2_amended (st : MemState) (uid fid : Nat) (f : Feed)
    (p : FeedPatch) (now : Nat) (hget : st.getFeed fid = some f)
    (hown : f.user_id = uid) :
    (∀ ft sep, p.full_text = some ft → p.separator = some sep →
      ft ≠ "" → sep ≠ "" →
      ∃ f', (patchFeedRoute st (some uid) fid p now).1 = .ok f' ∧
        (patchFeedRoute st (some uid) fid p now).2.getFeed fid = some f' ∧
        f'.contents = serverSplit ft sep) ∧
    (truthy p.full_text = false ∨ truthy p.separator = false →
      ∃ f', (patchFeedRoute st (some uid) fid p now).1 = .ok f' ∧
        (patchFeedRoute st (some uid) fid p now).2.getFeed fid = some f' ∧
        f'.contents = p.contents.getD f.contents) := by
  have hroute : ∀ p' : FeedPatch,
      (match st.updateFeed fid p' now with
        | .ok (f', st') => ((.ok f' : ApiResult Feed), st')
        | .error e => ((.serverError e : ApiResult Feed), st)) =
      (.ok (mergeFeed f p' fid now),
        { st with feeds := mset st.feeds fid (mergeFeed f p' fid now) }) := by
    intro p'
    unfold MemState.updateFeed
    unfold MemState.getFeed at hget
    rw [hget]
  have hnotne : ¬f.user_id ≠ uid := fun h => h hown
  have hmain : (patchFeedRoute st (some uid) fid p now).1 =
      .ok (mergeFeed f (recomputePatch p) fid now) ∧
      (patchFeedRoute st (some uid) fid p now).2.getFeed fid =
        some (mergeFeed f (recomputePatch p) fid now) := by
    constructor
    · simp only [patchFeedRoute, hget]
      rw [if_neg hnotne, hroute]
    · simp only [patchFeedRoute, hget]
      rw [if_neg hnotne, hroute]
      exact mget_mset_self _ _ _
  constructor
  · intro ft sep hft hsep hftne hsepne
    have hcond : (truthy p.full_text && truthy p.separator) = true := by
      rw [hft, hsep]
      simp [truthy, hftne, hsepne]
    have hrp : (recomputePatch p).contents = some (serverSplit ft sep) := by
      unfold recomputePatch
      rw [hcond]
      simp only [if_true]
      rw [hft, hsep]
      rfl
    refine ⟨mergeFeed f (recomputePatch p) fid now, hmain.1, hmain.2, ?_⟩
    show ((recomputePatch p).contents.getD f.contents) = serverSplit ft sep
    rw [hrp]
    rfl
  · intro hfalse
    have hcond : (truthy p.full_text && truthy p.separator) = false := by
      rcases hfalse with h | h <;> simp [h]
    have hrp : recomputePatch p = p := by
      unfold recomputePatch
      rw [hcond]
      rfl
    refine ⟨mergeFeed f (recomputePatch p) fid now, hmain.1, hmain.2, ?_⟩
    rw [hrp]
    rfl

/-- Witness for the amended C2: feed 1 of the sample store patched with
non-empty `full_text = "a,b"` and `separator = ","`. -/
theorem c2_amended_witness :
    baseStore.getFeed 1 = some (mkFeed 1 1 1 ["old"] 0) ∧
    (mkFeed 1 1 1 ["old"] 0).user_id = 1 ∧
    (∃ f', (patchFeedRoute baseStore (some 1) 1
        { full_text := some "a,b", separator := some "," } 5).1 = .ok f' ∧
      (patchFeedRoute baseStore (some 1) 1
        { full_text := some "a,b", separator := some "," } 5).2.getFeed 1 =
          some f' ∧
      f'.contents = serverSplit "a,b" ",") :=
  ⟨by decide, by decide,
    (c2_amended baseStore 1 1 (mkFeed 1 1 1 ["old"] 0)
      { full_text := some "a,b", separator := some "," } 5
      (by decide) (by decide)).1 "a,b" "," rfl rfl
      (by decide) (by decide)⟩

/-- Claim C9: the toggle route flips only `active`, sets `updated_at` to
the current time, and leaves every other field of the feed unchanged. -/
theorem c9_toggle_flips_only_active (st : MemState) (uid fid : Nat)
    (f : Feed) (now : Nat) (hget : st.getFeed fid = some f)
    (hown : f.user_id = uid) (hid : f.id = fid) :
    ∃ f', (toggleFeedRoute st (some uid) fid now).1 = .ok f' ∧
      (toggleFeedRoute st (some uid) fid now).2.getFeed fid = some f' ∧
      f'.active = !f.active ∧ f'.updated_at = now ∧ f'.id = f.id ∧
      f'.name = f.name ∧ f'.description = f.description ∧
      f'.full_text = f.full_text ∧ f'.contents = f.contents ∧
      f'.completed_contents = f.completed_contents ∧
      f'.separator = f.separator ∧ f'.created_at = f.created_at ∧
      f'.user_id = f.user_id ∧ f'.connection_id = f.connection_id ∧
      f'.num_sent = f.num_sent ∧ f'.frequency = f.frequency := by
  have hroute : (match st.updateFeed fid { active := some (!f.active) } now with
      | .ok (f', st') => ((.ok f' : ApiResult Feed), st')
      | .error e => ((.serverError e : ApiResult Feed), st)) =
      (.ok (mergeFeed f { active := some (!f.active) } fid now),
        { st with feeds := mset st.feeds fid (mergeFeed f { active := some (!f.active) } fid now) }) := by
    unfold MemState.updateFeed
    unfold MemState.getFeed at hget
    rw [hget]
  have hnotne : ¬f.user_id ≠ uid := fun h => h hown
  refine ⟨mergeFeed f { active := some (!f.active) } fid now, ?_, ?_,
    rfl, rfl, hid.symm, rfl, rfl, rfl, rfl, rfl, rfl, rfl, rfl, rfl, rfl, rfl⟩
  · simp only [toggleFeedRoute, hget]
    rw [if_neg hnotne, hroute]
  · simp only [toggleFeedRoute, hget]
    rw [if_neg hnotne, hroute]
    exact mget_mset_self _ _ _

/-- Witness for C9: toggling feed 1 of the sample store. -/
theorem c9_toggle_flips_only_active_witness :
    baseStore.getFeed 1 = some (mkFeed 1 1 1 ["old"] 0) ∧
    (mkFeed 1 1 1 ["old"] 0).user_id = 1 ∧
    (mkFeed 1 1 1 ["old"] 0).id = 1 ∧
    (∃ f', (toggleFeedRoute baseStore (some 1) 1 5).1 = .ok f' ∧
      (toggleFeedRoute baseStore (some 1) 1 5).2.getFeed 1 = some f' ∧
      f'.active = !(mkFeed 1 1 1 ["old"] 0).active ∧ f'.updated_at = 5 ∧
      f'.id = (mkFeed 1 1 1 ["old"] 0).id ∧
      f'.name = (mkFeed 1 1 1 ["old"] 0).name ∧
      f'.description = (mkFeed 1 1 1 ["old"] 0).description ∧
      f'.full_text = (mkFeed 1 1 1 ["old"] 0).full_text ∧
      f'.contents = (mkFeed 1 1 1 ["old"] 0).contents ∧
      f'.completed_contents = (mkFeed 1 1 1 ["old"] 0).completed_contents ∧
      f'.separator = (mkFeed 1 1 1 ["old"] 0).separator ∧
      f'.created_at = (mkFeed 1 1 1 ["old"] 0).created_at ∧
      f'.user_id = (mkFeed 1 1 1 ["old"] 0).user_id ∧
      f'.connection_id = (mkFeed 1 1 1 ["old"] 0).connection_id ∧
      f'.num_sent = (mkFeed 1 1 1 ["old"] 0).num_sent ∧
      f'.frequency = (mkFeed 1 1 1 ["old"] 0).frequency) :=
  ⟨by decide, by decide, by decide,
    c9_toggle_flips_only_active baseStore 1 1 (mkFeed 1 1 1 ["old"] 0) 5
      (by decide) (by decide) (by decide)⟩

/-- Counterexample to claim C10 as stated: `updated_at` is also
protected by the merge — a payload supplying `updated_at = 99` is
overridden with the current time, so `id` is not the only field the
merge protects. -/
theorem c10_counterexample :
    c10Patch.updated_at = some 99 ∧
    (baseStore.updateFeed 1 c10Patch 5).toOption.map Prod.fst =
      some c10Result ∧
    c10Result.updated_at = 5 ∧ c10Result.updated_at ≠ 99 :=
  ⟨rfl, by decide, rfl, by decide⟩

/-- Claim C10, amended: the merge protects exactly `id` (the payload's
`id` is discarded, the stored id is kept) and `updated_at` (always set
to the current time, discarding any payload value); every other field,
including `user_id` and `created_at`, is overwritten when the payload
supplies it — for both `updateFeed` and `updateConnection`. -/
theorem c10_amended :
    (∀ (st : MemState) (fid : Nat) (f : Feed) (p : FeedPatch) (now : Nat)
      (f' : Feed) (st2 : MemState), st.getFeed fid = some f →
      st.updateFeed fid p now = .ok (f', st2) →
      f'.id = fid ∧ f'.updated_at = now ∧
      f'.name = p.name.getD f.name ∧
      f'.description = p.description.getD f.description ∧
      f'.full_text = p.full_text.getD f.full_text ∧
      f'.contents = p.contents.getD f.contents ∧
      f'.completed_contents = p.completed_contents.getD f.completed_contents ∧
      f'.separator = p.separator.getD f.separator ∧
      f'.created_at = p.created_at.getD f.created_at ∧
      f'.user_id = p.user_id.getD f.user_id ∧
      f'.connection_id = p.connection_id.getD f.connection_id ∧
      f'.num_sent = p.num_sent.getD f.num_sent ∧
      f'.frequency = p.frequency.getD f.frequency ∧
      f'.active = p.active.getD f.active ∧
      st2.getFeed fid = some f') ∧
    (∀ (st : MemState) (cid : Nat) (c : Connection) (p : ConnPatch)
      (now : Nat) (c' : Connection) (st2 : MemState),
      st.getConnection cid = some c →
      st.updateConnection cid p now = .ok (c', st2) →
      c'.id = cid ∧ c'.updated_at = now ∧
      c'.name = p.name.getD c.name ∧ c'.url = p.url.getD c.url ∧
      c'.token = p.token.getD c.token ∧ c'.status = p.status.getD c.status ∧
      c'.user_id = p.user_id.getD c.user_id ∧ c'.icon = p.icon.getD c.icon ∧
      c'.created_at = p.created_at.getD c.created_at ∧
      c'.projects = p.projects.getD c.projects ∧
      st2.getConnection cid = some c') := by
  constructor
  · intro st fid f p now f' st2 hget hupd
    unfold MemState.updateFeed at hupd
    unfold MemState.getFeed at hget
    rw [hget, Except.ok.injEq, Prod.mk.injEq] at hupd
    obtain ⟨hf', hst2⟩ := hupd
    rw [← hf', ← hst2]
    refine ⟨rfl, rfl, rfl, rfl, rfl, rfl, rfl, rfl, rfl, rfl, rfl, rfl,
      rfl, rfl, ?_⟩
    exact mget_mset_self _ _ _
  · intro st cid c p now c' st2 hget hupd
    unfold MemState.updateConnection at hupd
    unfold MemState.getConnection at hget
    rw [hget, Except.ok.injEq, Prod.mk.injEq] at hupd
    obtain ⟨hc', hst2⟩ := hupd
    rw [← hc', ← hst2]
    refine ⟨rfl, rfl, rfl, rfl, rfl, rfl, rfl, rfl, rfl, rfl, ?_⟩
    exact mget_mset_self _ _ _

/-- Witness for the amended C10: a payload supplying `id`, `user_id` and
`created_at` on feed 1, and one supplying `id` and `user_id` on
connection 2, of the sample store. -/
theorem c10_amended_witness :
    baseStore.getFeed 1 = some (mkFeed 1 1 1 ["old"] 0) ∧
    baseStore.updateFeed 1 c10wPatch 5 = .ok (c10wResult, c10wState) ∧
    c10wResult.id = 1 ∧ c10wResult.updated_at = 5 ∧
    c10wResult.user_id = c10wPatch.user_id.getD (mkFeed 1 1 1 ["old"] 0).user_id ∧
    c10wResult.created_at = c10wPatch.created_at.getD (mkFeed 1 1 1 ["old"] 0).created_at ∧
    c10wState.getFeed 1 = some c10wResult ∧
    baseStore.getConnection 2 = some (mkConnection 2 1) ∧
    baseStore.updateConnection 2 c10cPatch 5 = .ok (c10cResult, c10cState) ∧
    c10cResult.id = 2 ∧ c10cResult.updated_at = 5 ∧
    c10cResult.user_id = c10cPatch.user_id.getD (mkConnection 2 1).user_id ∧
    c10cState.getConnection 2 = some c10cResult := by
  have hf := c10_amended.1 baseStore 1 (mkFeed 1 1 1 ["old"] 0) c10wPatch 5
    c10wResult c10wState (by decide) rfl
  have hc := c10_amended.2 baseStore 2 (mkConnection 2 1) c10cPatch 5
    c10cResult c10cState (by decide) rfl
  exact ⟨by decide, rfl, hf.1, hf.2.1, hf.2.2.2.2.2.2.2.2.2.1,
    hf.2.2.2.2.2.2.2.2.1, hf.2.2.2.2.2.2.2.2.2.2.2.2.2.2,
    by decide, rfl, hc.1, hc.2.1, hc.2.2.2.2.2.2.1,
    hc.2.2.2.2.2.2.2.2.2.2⟩

/-- Claim C4: for reads, updates and deletes of Connections and Feeds,
an absent id and an existing id owned by a different user produce the
identical not-found outcome (404 with the same message), with the store
left unchanged, so the check short-circuits before any mutation. -/
theorem c4_not_found_uniform (st : MemState) (uid cid fid : Nat)
    (pc : ConnPatch) (pf : FeedPatch) (now : Nat) :
    ((st.getConnection cid = none ∨
        ∃ c, st.getConnection cid = some c ∧ c.user_id ≠ uid) →
      getConnectionRoute st (some uid) cid =
        (.notFound "Connection not found", st) ∧
      patchConnectionRoute st (some uid) cid pc now =
        (.notFound "Connection not found", st) ∧
      deleteConnectionRoute st (some uid) cid =
        (.notFound "Connection not found", st)) ∧
    ((st.getFeed fid = none ∨
        ∃ f, st.getFeed fid = some f ∧ f.user_id ≠ uid) →
      getFeedRoute st (some uid) fid = (.notFound "Feed not found", st) ∧
      patchFeedRoute st (some uid) fid pf now =
        (.notFound "Feed not found", st) ∧
      toggleFeedRoute st (some uid) fid now =
        (.notFound "Feed not found", st) ∧
      deleteFeedRoute st (some uid) fid =
        (.notFound "Feed not found", st)) := by
  constructor
  · rintro (h | ⟨c, hc, hne⟩)
    · refine ⟨?_, ?_, ?_⟩
      · simp only [getConnectionRoute, h]
      · simp only [patchConnectionRoute, h]
      · simp only [deleteConnectionRoute, h]
    · refine ⟨?_, ?_, ?_⟩
      · simp only [getConnectionRoute, hc]
        rw [if_pos hne]
      · simp only [patchConnectionRoute, hc]
        rw [if_pos hne]
      · simp only [deleteConnectionRoute, hc]
        rw [if_pos hne]
  · rintro (h | ⟨f, hf, hne⟩)
    · refine ⟨?_, ?_, ?_, ?_⟩
      · simp only [getFeedRoute, h]
      · simp only [patchFeedRoute, h]
      · simp only [toggleFeedRoute, h]
      · simp only [deleteFeedRoute, h]
    · refine ⟨?_, ?_, ?_, ?_⟩
      · simp only [getFeedRoute, hf]
        rw [if_pos hne]
      · simp only [patchFeedRoute, hf]
        rw [if_pos hne]
      · simp only [toggleFeedRoute, hf]
        rw [if_pos hne]
      · simp only [deleteFeedRoute, hf]
        rw [if_pos hne]

/-- Witness for C4 at the sample store with the absent id 99 for both
entity kinds. -/
theorem c4_not_found_uniform_witness :
    baseStore.getConnection 99 = none ∧ baseStore.getFeed 99 = none ∧
    (getConnectionRoute baseStore (some 1) 99 =
        (.notFound "Connection not found", baseStore) ∧
      patchConnectionRoute baseStore (some 1) 99 {} 0 =
        (.notFound "Connection not found", baseStore) ∧
      deleteConnectionRoute baseStore (some 1) 99 =
        (.notFound "Connection not found", baseStore)) ∧
    (getFeedRoute baseStore (some 1) 99 =
        (.notFound "Feed not found", baseStore) ∧
      patchFeedRoute baseStore (some 1) 99 {} 0 =
        (.notFound "Feed not found", baseStore) ∧
      toggleFeedRoute baseStore (some 1) 99 0 =
        (.notFound "Feed not found", baseStore) ∧
      deleteFeedRoute baseStore (some 1) 99 =
        (.notFound "Feed not found", baseStore)) :=
  ⟨by decide, by decide,
    (c4_not_found_uniform baseStore 1 99 99 {} {} 0).1 (Or.inl (by decide)),
    (c4_not_found_uniform baseStore 1 99 99 {} {} 0).2 (Or.inl (by decide))⟩

/-- Claim C3: deleting a Connection deletes exactly its dependent Feeds
and the Connection itself; lookups of the Connection and of each
dependent Feed then return not-found, while feeds of other connections,
other connections, and users are untouched. -/
theorem c3_delete_connection_cascade (st : MemState) (hwf : WFFeeds st)
    (cid : Nat) :
    (st.deleteConnection cid).getConnection cid = none ∧
    (∀ f ∈ st.getFeedsByConnectionId cid,
      (st.deleteConnection cid).getFeed f.id = none) ∧
    (∀ k g, st.getFeed k = some g → g.connection_id ≠ cid →
      (st.deleteConnection cid).getFeed k = some g) ∧
    (∀ k, k ≠ cid →
      (st.deleteConnection cid).getConnection k = st.getConnection k) ∧
    (∀ k, (st.deleteConnection cid).getUser k = st.getUser k) := by
  have hconn : (st.deleteConnection cid).connections =
      mdel st.connections cid := by
    show mdel ((st.getFeedsByConnectionId cid).foldl
      (fun s f => s.deleteFeed f.id) st).connections cid = _
    rw [foldDelete_connections]
  have husers : (st.deleteConnection cid).users = st.users := by
    show ((st.getFeedsByConnectionId cid).foldl
      (fun s f => s.deleteFeed f.id) st).users = _
    rw [foldDelete_users]
  have hfeeds : (st.deleteConnection cid).feeds =
      st.feeds.filter (fun kv =>
        !((st.getFeedsByConnectionId cid).any (fun f => f.id == kv.1))) := by
    show ((st.getFeedsByConnectionId cid).foldl
      (fun s f => s.deleteFeed f.id) st).feeds = _
    rw [foldDelete_feeds]
  refine ⟨?_, ?_, ?_, ?_, ?_⟩
  · show mget (st.deleteConnection cid).connections cid = none
    rw [hconn]
    exact mget_mdel_self _ _
  · intro f hf
    show mget (st.deleteConnection cid).feeds f.id = none
    rw [hfeeds]
    apply mget_eq_none_of_all
    intro kv hkv heq
    rcases List.mem_filter.mp hkv with ⟨_, hp⟩
    have hany : (st.getFeedsByConnectionId cid).any
        (fun g => g.id == kv.1) = true :=
      List.any_eq_true.mpr ⟨f, hf, by rw [heq]; exact beq_self_eq_true f.id⟩
    rw [hany] at hp
    simp at hp
  · intro k g hg hgc
    show mget (st.deleteConnection cid).feeds k = some g
    rw [hfeeds]
    have hmem : (k, g) ∈ st.feeds := mem_of_mget_eq_some hg
    have hfalse : (st.getFeedsByConnectionId cid).any
        (fun f => f.id == k) = false := by
      rw [List.any_eq_false]
      intro h hmem2 hbeq
      have hidk : h.id = k := by simpa using hbeq
      rcases List.mem_filter.mp hmem2 with ⟨hval, hcidb⟩
      rcases List.mem_map.mp hval with ⟨kv2, hkv2, hsnd⟩
      have hk2 : kv2.1 = k := by rw [← hwf.2 kv2 hkv2, hsnd, hidk]
      have hmem3 : (k, kv2.2) ∈ st.feeds := by
        rw [← hk2]
        simpa using hkv2
      have hhg : h = g := by
        rw [← hsnd]
        exact key_inj_of_nodup hwf.1 hmem3 hmem
      have : h.connection_id = cid := by simpa using hcidb
      rw [hhg] at this
      exact hgc this
    have hP : (!((st.getFeedsByConnectionId cid).any
        (fun f => f.id == k))) = true := by
      rw [hfalse]
      rfl
    have hnd2 : ((st.feeds.filter (fun kv =>
        !((st.getFeedsByConnectionId cid).any (fun f => f.id == kv.1)))).map
          (fun kv => kv.1)).Nodup :=
      List.Nodup.sublist
        (List.Sublist.map (fun kv : Nat × Feed => kv.1)
          (List.filter_sublist st.feeds)) hwf.1
    exact mget_of_mem_nodup hnd2 (List.mem_filter.mpr ⟨hmem, hP⟩)
  · intro k hk
    show mget (st.deleteConnection cid).connections k = _
    rw [hconn]
    exact mget_mdel_ne _ hk
  · intro k
    show mget (st.deleteConnection cid).users k = _
    rw [husers]
    rfl

/-- Witness for C3: deleting connection 1 of the sample store, whose
dependent feed is feed 1 while feed 2 belongs to connection 2. -/
theorem c3_delete_connection_cascade_witness :
    WFFeeds baseStore ∧
    ((baseStore.deleteConnection 1).getConnection 1 = none ∧
      (∀ f ∈ baseStore.getFeedsByConnectionId 1,
        (baseStore.deleteConnection 1).getFeed f.id = none) ∧
      (∀ k g, baseStore.getFeed k = some g → g.connection_id ≠ 1 →
        (baseStore.deleteConnection 1).getFeed k = some g) ∧
      (∀ k, k ≠ 1 →
        (baseStore.deleteConnection 1).getConnection k =
          baseStore.getConnection k) ∧
      (∀ k, (baseStore.deleteConnection 1).getUser k =
        baseStore.getUser k)) :=
  ⟨by decide, c3_delete_connection_cascade baseStore (by decide) 1⟩

end MiniMind
